import Mathlib

/-!
Shallow embedding of the `visvasity/cli` command-tree resolver.

Tokens (Go strings) are modelled as `List Char`.  The resolver state carries
the resolved command path, the active-children map, the special-command
marker (`gc.specialCmd`), a ghost counter of assignments to that marker, and
the in-place flag-value mutations as an association list keyed by the depth
of the declaring node on the path.
-/

namespace Cli

/-- A command-line token (a Go string), modelled as its character list. -/
abbrev Tok := List Char

/-- Flag-value store: (depth of declaring node on the path, flag name, last
accepted raw text value).  Most recent entry first. -/
abbrev Store := List (Nat × Tok × Tok)

/-- A declared flag: name, whether its `flag.Value` implements `boolFlag`
with `IsBoolFlag() = true`, and which raw texts its `Set` accepts (the
external typed-conversion collaborator). -/
structure FlagSpec where
  name : Tok
  isBool : Bool
  accepts : Tok → Bool

/-- A command-tree node: a leaf (`basicCmd`, whose `CmdFunc` may be nil,
recorded by `hasFun`) or a group (`groupCmd`, whose `CmdFunc` is always
nil). `flags` is the node's own `flag.FlagSet` contents. -/
inductive Node where
  | leaf (name : Tok) (flags : List FlagSpec) (hasFun : Bool)
  | group (name : Tok) (flags : List FlagSpec) (subs : List Node)

/-- Name of a node (the `flag.FlagSet` name). -/
def Node.name : Node → Tok
  | .leaf n _ _ => n
  | .group n _ _ => n

/-- The node's own flag registry. -/
def Node.flags : Node → List FlagSpec
  | .leaf _ fl _ => fl
  | .group _ fl _ => fl

/-- Children of a node: a group's subcommands; a leaf has none. -/
def Node.children : Node → List Node
  | .leaf _ _ _ => []
  | .group _ _ subs => subs

/-- Whether the node is a `*groupCmd` (the `cmdpath[last].cmd.(*groupCmd)`
type test). -/
def Node.isGroup : Node → Bool
  | .leaf _ _ _ => false
  | .group _ _ _ => true

/-- Whether the node's `CmdFunc` is non-nil: a group's is always nil. -/
def Node.hasExec : Node → Bool
  | .leaf _ _ h => h
  | .group _ _ _ => false

/-- Resolution-phase errors of `resolve` (the typed `fmt.Errorf` failures). -/
inductive RErr where
  /-- Go error "command not defined: %s". -/
  | commandNotFound (s : Tok)
  /-- Go error "bad flag syntax: %s". -/
  | badFlagSyntax (s : Tok)
  /-- Go error "flag provided but not defined: -%s". -/
  | unknownFlag (name : Tok)
  /-- Go error "invalid boolean value %q for -%s". -/
  | invalidBoolValue (name value : Tok)
  /-- Go error "invalid boolean flag %s". -/
  | invalidBoolFlag (name : Tok)
  /-- Go error "flag needs an argument: -%s". -/
  | missingFlagValue (name : Tok)
  /-- Go error "invalid value %q for flag -%s". -/
  | invalidValue (name value : Tok)
  deriving DecidableEq

/-- Resolver state: the growing `cmdpath`, the current `cmdDataMap`
(`active`), the `gc.specialCmd` field (`[]` means unset), a ghost counter of
assignments to `gc.specialCmd`, and the flag-value store. -/
structure RState where
  cmdpath : List Node
  active : List Node
  special : Tok
  specialSets : Nat
  store : Store

/-- The token `"--"`. -/
def ddash : Tok := ['-', '-']

/-- The reserved word `help`. -/
def helpTok : Tok := ['h', 'e', 'l', 'p']

/-- The reserved alias `h`. -/
def hTok : Tok := ['h']

/-- The reserved word `flags`. -/
def flagsTok : Tok := ['f', 'l', 'a', 'g', 's']

/-- The reserved word `commands`. -/
def commandsTok : Tok := ['c', 'o', 'm', 'm', 'a', 'n', 'd', 's']

/-- The text `"true"` passed to `Set` for a bare boolean flag. -/
def trueTok : Tok := ['t', 'r', 'u', 'e']

/-- The reserved names of the package-level `specialCmds` slice: help, flags, commands. -/
def specialCmdsL : List Tok := [helpTok, flagsTok, commandsTok]

/-- Go's flag-token test: `len(s) >= 2 && s[0] == '-'` (the negation of
`len(s) < 2 || s[0] != '-'`). -/
def isFlagTok : Tok → Bool
  | a :: _ :: _ => a == '-'
  | _ => false

/-- Strip the `-` or `--` prefix: `name := s[1:]; if s[1] == '-' { name =
s[2:] }`.  Only called on flag tokens (length ≥ 2, head `-`). -/
def flagName0 : Tok → Tok
  | _ :: b :: rest => if b = '-' then rest else b :: rest
  | s => s

/-- The malformed-name test `len(name) == 0 || name[0] == '-' || name[0] == '='`. -/
def badName : Tok → Bool
  | [] => true
  | c :: _ => c == '-' || c == '='

/-- Split at the first `=`: mirrors `strings.Contains` / `strings.Index` /
the slicing `name[:pos]`, `name[pos+1:]`. -/
def splitEq : Tok → Tok × Option Tok
  | [] => ([], none)
  | c :: rest =>
    if c = '=' then ([], some rest)
    else
      let r := splitEq rest
      (c :: r.1, r.2)

/-- Go's `fset.Lookup(name)` on one node's own registry. -/
def flagIn (flags : List FlagSpec) (name : Tok) : Option FlagSpec :=
  flags.find? (fun f => f.name == name)

/-- Whether a node's own registry declares `name`. -/
def declares (n : Node) (name : Tok) : Bool :=
  (flagIn n.flags name).isSome

/-- The `lookup` closure of `resolve`: scan `cmdpath` from the deepest (most
recently appended) node outward to the root, returning the first match
together with the declaring node's index in the path (root = 0, deepest =
length - 1). -/
def lookupFlag : List Node → Tok → Option (Nat × FlagSpec)
  | [], _ => none
  | n :: rest, name =>
    match lookupFlag rest name with
    | some df => some (df.1 + 1, df.2)
    | none =>
      match flagIn n.flags name with
      | some f => some (0, f)
      | none => none

/-- Lookup of `s` in `cmdDataMap`, a Go map built by insertion in declaration order, so on
duplicate names the last insertion wins. -/
def findCmd (cmds : List Node) (s : Tok) : Option Node :=
  cmds.reverse.find? (fun c => c.name == s)

/-- Indexing `cmdpath` at `i`, with a dummy out-of-range default. -/
def nodeAt (l : List Node) (i : Nat) : Node :=
  l.getD i (Node.leaf [] [] false)

/-- Record a successful `Set` on the flag declared by the node at depth `d`. -/
def setF (st : RState) (d : Nat) (name v : Tok) : RState :=
  { st with store := (d, name, v) :: st.store }

/-- The assignment `gc.specialCmd = s` (with the ghost counter bumped). -/
def setSpecial (st : RState) (s : Tok) : RState :=
  { st with special := s, specialSets := st.specialSets + 1 }

/-- Append a matched subcommand to `cmdpath` and re-prepare `cmdDataMap`:
a group's children for a group, the empty map for a leaf. -/
def enterCmd (st : RState) (sub : Node) : RState :=
  { st with cmdpath := st.cmdpath ++ [sub], active := sub.children }

/-- Read back the last accepted value of the flag `name` declared at depth
`d` (`none` = still at its default). -/
def getValue (store : Store) (d : Nat) (name : Tok) : Option Tok :=
  (store.find? (fun e => e.1 == d && e.2.1 == name)).map (fun e => e.2.2)

/-- Handling of one flag token `s` (already known to have a `-`/`--`
prefix): strip the prefix, reject malformed names, split off the inline
value, look the name up deepest-first in the path, and set the flag.
`next?` is the look-ahead token (`args[i+1]`, when present); the returned
Bool reports whether it was consumed as the value of a non-boolean flag
with no inline value. -/
def flagStep (st : RState) (s : Tok) (next? : Option Tok) : Except RErr (RState × Bool) :=
  if badName (flagName0 s) then
    .error (.badFlagSyntax s)
  else
    match lookupFlag st.cmdpath (splitEq (flagName0 s)).1 with
    | none =>
      if (splitEq (flagName0 s)).1 = helpTok ∨ (splitEq (flagName0 s)).1 = hTok then
        .ok (setSpecial st helpTok, false)
      else
        .error (.unknownFlag (splitEq (flagName0 s)).1)
    | some df =>
      if df.2.isBool then
        match (splitEq (flagName0 s)).2 with
        | some v =>
          if df.2.accepts v then
            .ok (setF st df.1 (splitEq (flagName0 s)).1 v, false)
          else
            .error (.invalidBoolValue (splitEq (flagName0 s)).1 v)
        | none =>
          if df.2.accepts trueTok then
            .ok (setF st df.1 (splitEq (flagName0 s)).1 trueTok, false)
          else
            .error (.invalidBoolFlag (splitEq (flagName0 s)).1)
      else
        match (splitEq (flagName0 s)).2 with
        | some v =>
          if df.2.accepts v then
            .ok (setF st df.1 (splitEq (flagName0 s)).1 v, false)
          else
            .error (.invalidValue (splitEq (flagName0 s)).1 v)
        | none =>
          match next? with
          | none => .error (.missingFlagValue (splitEq (flagName0 s)).1)
          | some v =>
            if df.2.accepts v then
              .ok (setF st df.1 (splitEq (flagName0 s)).1 v, true)
            else
              .error (.invalidValue (splitEq (flagName0 s)).1 v)

/-- The token-scanning loop of `groupCmd.resolve`, one Go `for` iteration
per equation step.  Returns the final state plus the residual arguments
(`args[i:]`), or the first failure.  A consumed look-ahead advances the
scan by one extra token; `flagStep` reports a consumed look-ahead only when
one exists, so the empty-rest arm of that inner match is unreachable. -/
def resolveLoop : RState → List Tok → Except RErr (RState × List Tok)
  | st, [] => .ok (st, [])
  | st, s :: rest =>
    if s = ddash then
      .ok (st, rest)
    else if isFlagTok s then
      match flagStep st s rest.head? with
      | .error e => .error e
      | .ok (st2, false) => resolveLoop st2 rest
      | .ok (st2, true) =>
        match rest with
        | [] => .ok (st2, [])
        | _ :: rest2 => resolveLoop st2 rest2
    else
      if st.active.isEmpty then
        .ok (st, s :: rest)
      else
        match findCmd st.active s with
        | some sub => resolveLoop (enterCmd st sub) rest
        | none =>
          if st.cmdpath.length = 1 ∧ s ∈ specialCmdsL then
            resolveLoop (setSpecial st s) rest
          else
            .error (.commandNotFound s)

/-- Initial resolver state: `cmdpath = [{flag.CommandLine, gc}]`,
`cmdDataMap` prepared from `gc.subcmds`, `gc.specialCmd` empty. -/
def initStateOf (root : Node) : RState :=
  { cmdpath := [root], active := root.children, special := [],
    specialSets := 0, store := [] }

/-- Go's `groupCmd.resolve`: run the scanning loop from the initial state. -/
def resolve (root : Node) (args : List Tok) : Except RErr (RState × List Tok) :=
  resolveLoop (initStateOf root) args

/-- Observable outcome of one `Run`/`groupCmd.run` invocation.  `errInvalid`
is the eager `os.ErrInvalid` return; `failed` is a resolution error returned
to the caller; the three `printed*` outcomes are the help synthesizer being
triggered; `invoked` is the terminal leaf's `CmdFunc` being called with the
residual arguments. -/
inductive Outcome where
  | errInvalid
  | failed (e : RErr)
  | printedHelp (path : List Node)
  | printedFlags (path : List Node)
  | printedCommands (path : List Node)
  | invoked (path : List Node) (residual : List Tok) (store : Store)

/-- The dispatch test `fun := cmdpath[len(cmdpath)-1].fun; fun != nil`. -/
def pathHasFun (cmdpath : List Node) : Bool :=
  (nodeAt cmdpath (cmdpath.length - 1)).hasExec

/-- Go's `groupCmd.run`: resolve, then dispatch on `gc.specialCmd`, falling back
to `printHelp` when the terminal node has no function. -/
def runGroup (root : Node) (args : List Tok) : Outcome :=
  match resolve root args with
  | .error e => .failed e
  | .ok (st, residual) =>
    if st.special = helpTok then .printedHelp st.cmdpath
    else if st.special = flagsTok then .printedFlags st.cmdpath
    else if st.special = commandsTok then .printedCommands st.cmdpath
    else if pathHasFun st.cmdpath then .invoked st.cmdpath residual st.store
    else .printedHelp st.cmdpath

/-- Go's `cli.Run`.  Here `cmds = none` models a nil `[]Command` slice (only nil, not
an empty non-nil slice, is caught by the `cmds == nil` test).  After that
test, `Run` evaluates `&args[0]`, which panics when `args` is empty —
modelled as `none`.  The `&args[0] == &os.Args[0]` aliasing shortcut is
identity of slices, which never fires for the distinct slices modelled
here.  The root node is `groupCmd{flags: flag.CommandLine, subcmds: cmds}`,
so `rootFlags` stands for the contents of `flag.CommandLine`. -/
def RunModel (rootName : Tok) (rootFlags : List FlagSpec)
    (cmds : Option (List Node)) (args : List Tok) : Option Outcome :=
  match cmds with
  | none => some .errInvalid
  | some cs =>
    match args with
    | [] => none
    | _ :: _ => some (runGroup (.group rootName rootFlags cs) args)

/-- The file component of Go's `filepath.Split`: everything after the last `/`. -/
def basename (s : Tok) : Tok :=
  (s.reverse.takeWhile (fun c => !(c == '/'))).reverse

/-- The word `<flags>`. -/
def flagsWord : Tok := ['<', 'f', 'l', 'a', 'g', 's', '>']

/-- The word `<subcommand>`. -/
def subcommandWord : Tok := ['<', 's', 'u', 'b', 'c', 'o', 'm', 'm', 'a', 'n', 'd', '>']

/-- The word `<args>`. -/
def argsWord : Tok := ['<', 'a', 'r', 'g', 's', '>']

/-- Go's `getUsage`, as the sequence of words later joined by single spaces:
every path node's name in order (the root's name reduced to its basename),
then `<flags>` once if some node on the path declares a flag (`numFlags !=
0`), then `<subcommand>` if the terminal node is a `*groupCmd`, then
`<args>`. -/
def getUsage (cmdpath : List Node) : List Tok :=
  let words1 :=
    match cmdpath with
    | [] => []
    | r :: rest => basename r.name :: rest.map Node.name
  let words2 :=
    if cmdpath.any (fun c => c.flags.length ≠ 0) then words1 ++ [flagsWord]
    else words1
  let words3 :=
    if (nodeAt cmdpath (cmdpath.length - 1)).isGroup then words2 ++ [subcommandWord]
    else words2
  words3 ++ [argsWord]

/-- Modelled from the spec's claim wording for the usage line (for
comparison with `getUsage`): root's display name, then `<flags>` if any
node on the path declares at least one flag, then each non-root node's name
in path order, then `<subcommand>` if the terminal node is a group, then
`<args>`. -/
def claimUsageWords (cmdpath : List Node) : List Tok :=
  match cmdpath with
  | [] => [argsWord]
  | r :: rest =>
    basename r.name ::
      ((if (r :: rest).any (fun c => c.flags.length ≠ 0) then [flagsWord] else []) ++
        rest.map Node.name ++
        (if (nodeAt (r :: rest) rest.length).isGroup then [subcommandWord] else []) ++
        [argsWord])

/-- The usage line as the counterexample forces it to be amended: all path
node names first (root basename'd), then the optional `<flags>`, then the
optional `<subcommand>`, then `<args>`. -/
def amendedUsageWords (cmdpath : List Node) : List Tok :=
  match cmdpath with
  | [] => [argsWord]
  | r :: rest =>
    basename r.name ::
      (rest.map Node.name ++
        (if (r :: rest).any (fun c => c.flags.length ≠ 0) then [flagsWord] else []) ++
        (if (nodeAt (r :: rest) rest.length).isGroup then [subcommandWord] else []) ++
        [argsWord])

/-- The final `gc.specialCmd` of a successful resolution (sentinel on error). -/
def specialOf : Except RErr (RState × List Tok) → Tok
  | .ok (st, _) => st.special
  | .error _ => ['!']

/-- How many times `gc.specialCmd` was assigned during resolution (0 on error). -/
def specialSetsOf : Except RErr (RState × List Tok) → Nat
  | .ok (st, _) => st.specialSets
  | .error _ => 0

/-- The texts accepted by `strconv.ParseBool`, which backs a standard
boolean flag's `Set`. -/
def boolLits : List Tok :=
  [['1'], ['t'], ['T'], ['T', 'R', 'U', 'E'], ['t', 'r', 'u', 'e'],
   ['T', 'r', 'u', 'e'], ['0'], ['f'], ['F'], ['F', 'A', 'L', 'S', 'E'],
   ['f', 'a', 'l', 's', 'e'], ['F', 'a', 'l', 's', 'e']]

/-- Acceptance predicate of a standard boolean flag value. -/
def goAccepts (s : Tok) : Bool := boolLits.contains s

/-- Acceptance predicate of an integer-valued flag (non-empty digit
strings), a concrete instance of the external conversion collaborator. -/
def allDigits (s : Tok) : Bool := !s.isEmpty && s.all (fun c => c.isDigit)

/-- Example root program name. -/
def progTok : Tok := ['p', 'r', 'o', 'g']

/-- Example flag `x`, integer-valued, declared at two depths. -/
def xFlag : FlagSpec := ⟨['x'], false, allDigits⟩

/-- Example flag `port`, integer-valued. -/
def portFlag : FlagSpec := ⟨['p', 'o', 'r', 't'], false, allDigits⟩

/-- Example boolean flag `v`. -/
def vFlag : FlagSpec := ⟨['v'], true, goAccepts⟩

/-- Example boolean flag named `h`, shadowing the reserved help alias. -/
def hFlag : FlagSpec := ⟨['h'], true, goAccepts⟩

/-- Example leaf `sub` with a function. -/
def subLeaf : Node := .leaf ['s', 'u', 'b'] [] true

/-- Example leaf `start` with a function. -/
def startLeaf : Node := .leaf ['s', 't', 'a', 'r', 't'] [] true

/-- Example leaf `leaf` below the two `x`-declaring nodes. -/
def leafX : Node := .leaf ['l', 'e', 'a', 'f'] [] true

/-- Example group `group` declaring `x`, the deeper declaration. -/
def grpX : Node := .group ['g', 'r', 'o', 'u', 'p'] [xFlag] [leafX]

/-- Example root declaring `x`, the shallower declaration. -/
def rootX : Node := .group progTok [xFlag] [grpX]

/-- Resolver state after `group leaf` has been entered on `rootX`. -/
def stX : RState :=
  { cmdpath := [rootX, grpX, leafX], active := [], special := [],
    specialSets := 0, store := [] }

/-- Example root declaring a user flag named `h`. -/
def rootH : Node := .group progTok [hFlag] [subLeaf]

/-- Example root with one subcommand and no flags. -/
def rootPlain : Node := .group progTok [] [subLeaf]

/-- State mid-resolution on `rootPlain` with the marker already set to
`help` once. -/
def stMarked : RState :=
  { cmdpath := [rootPlain], active := [subLeaf], special := helpTok,
    specialSets := 1, store := [] }

/-- Example group `server` containing only `start`. -/
def serverGrp : Node := .group ['s', 'e', 'r', 'v', 'e', 'r'] [] [startLeaf]

/-- Example root containing the `server` group. -/
def rootSrv : Node := .group progTok [] [serverGrp]

/-- Example root declaring `port`. -/
def rootPort : Node := .group progTok [portFlag] []

/-- Example root declaring the boolean `v`. -/
def rootV : Node := .group progTok [vFlag] []

/-- Example resolved path whose root declares a flag and whose terminal is
the leaf `start`. -/
def pathUsage : List Node := [.group progTok [portFlag] [startLeaf], startLeaf]

/-- Splitting a token with no `=` yields the whole token and no inline value. -/
theorem splitEq_of_not_mem (n : Tok) (h : '=' ∉ n) : splitEq n = (n, none) := by
  induction n with
  | nil => rfl
  | cons c cs ih =>
    have hc : ¬c = '=' := by
      rintro rfl
      exact h (List.mem_cons_self _ _)
    have hcs : '=' ∉ cs := fun hm => h (List.mem_cons_of_mem _ hm)
    simp [splitEq, hc, ih hcs]

/-- Splitting `name=value` (with `=`-free `name`) separates name and value. -/
theorem splitEq_append (n v : Tok) (h : '=' ∉ n) :
    splitEq (n ++ '=' :: v) = (n, some v) := by
  induction n with
  | nil => simp [splitEq]
  | cons c cs ih =>
    have hc : ¬c = '=' := by
      rintro rfl
      exact h (List.mem_cons_self _ _)
    have hcs : '=' ∉ cs := fun hm => h (List.mem_cons_of_mem _ hm)
    simp [splitEq, hc, ih hcs]

/-- When the deepest-first scan misses, no node on the path declares the name. -/
theorem lookupFlag_none_decl (path : List Node) (name : Tok)
    (h : lookupFlag path name = none) :
    ∀ j, j < path.length → declares (nodeAt path j) name = false := by
  induction path with
  | nil => intro j hj; simp at hj
  | cons n rest ih =>
    intro j hj
    rw [lookupFlag] at h
    cases h1 : lookupFlag rest name with
    | some df => rw [h1] at h; simp at h
    | none =>
      rw [h1] at h
      cases h2 : flagIn n.flags name with
      | some f => rw [h2] at h; simp at h
      | none =>
        cases j with
        | zero => simp [nodeAt, declares, h2]
        | succ j2 =>
          have hj2 : j2 < rest.length := by simpa using hj
          simpa [nodeAt] using ih h1 j2 hj2

/-- The deepest-first scan returns the deepest declaring node: the hit is
in range, declares the name, and no strictly deeper node on the path does. -/
theorem lookupFlag_some_deepest (path : List Node) (name : Tok) (d : Nat) (f : FlagSpec)
    (h : lookupFlag path name = some (d, f)) :
    d < path.length ∧ declares (nodeAt path d) name = true
      ∧ ∀ j, d < j → j < path.length → declares (nodeAt path j) name = false := by
  induction path generalizing d f with
  | nil => simp [lookupFlag] at h
  | cons n rest ih =>
    rw [lookupFlag] at h
    cases h1 : lookupFlag rest name with
    | some df =>
      obtain ⟨d2, f2⟩ := df
      rw [h1] at h
      obtain ⟨hd, hf⟩ : d2 + 1 = d ∧ f2 = f := by simpa using h
      subst hd
      subst hf
      obtain ⟨ha, hb, hc⟩ := ih d2 f2 h1
      refine ⟨by simpa using Nat.succ_lt_succ ha, by simpa [nodeAt] using hb, ?_⟩
      intro j hj1 hj2
      cases j with
      | zero => omega
      | succ j2 =>
        have : d2 < j2 := by omega
        have hr : j2 < rest.length := by simpa using hj2
        simpa [nodeAt] using hc j2 this hr
    | none =>
      rw [h1] at h
      cases h2 : flagIn n.flags name with
      | some f2 =>
        rw [h2] at h
        simp only [Option.some.injEq, Prod.mk.injEq] at h
        obtain ⟨hd, hf⟩ := h
        subst hd hf
        refine ⟨by simp, by simp [nodeAt, declares, h2], ?_⟩
        intro j hj1 hj2
        cases j with
        | zero => omega
        | succ j2 =>
          have hr : j2 < rest.length := by simpa using hj2
          simpa [nodeAt] using lookupFlag_none_decl rest name h1 j2 hr
      | none => rw [h2] at h; simp at h

/-- A store entry for depth `d` does not change the value read at a
different depth `i`. -/
theorem getValue_cons_ne (store : Store) (d i : Nat) (name v : Tok) (h : i ≠ d) :
    getValue ((d, name, v) :: store) i name = getValue store i name := by
  have hd : (d == i) = false := by
    simp only [beq_eq_false_iff_ne]
    exact Ne.symm h
  show (List.find? (fun e => e.1 == i && e.2.1 == name)
      ((d, name, v) :: store)).map (fun e => e.2.2) = _
  rw [List.find?_cons_of_neg]
  · rfl
  · simp [hd]

/-- Any token of the form `-x...` passes the flag-token test. -/
theorem isFlagTok_cons (b : Char) (t : Tok) : isFlagTok ('-' :: b :: t) = true := rfl

/-- Stripping a single-dash token whose name starts with a non-dash. -/
theorem flagName0_dash (c : Char) (t : Tok) (hc1 : c ≠ '-') :
    flagName0 ('-' :: c :: t) = c :: t := by
  simp [flagName0, hc1]

/-- Stripping a double-dash token. -/
theorem flagName0_ddash (t : Tok) : flagName0 ('-' :: '-' :: t) = t := by
  simp [flagName0]

set_option maxHeartbeats 1600000 in
/-- Unfolding of one loop iteration on a non-empty token list. -/
theorem resolveLoop_cons_eq (st : RState) (s : Tok) (rest : List Tok) :
    resolveLoop st (s :: rest) =
      (if s = ddash then
        .ok (st, rest)
      else if isFlagTok s then
        match flagStep st s rest.head? with
        | .error e => .error e
        | .ok (st2, false) => resolveLoop st2 rest
        | .ok (st2, true) =>
          match rest with
          | [] => .ok (st2, [])
          | _ :: rest2 => resolveLoop st2 rest2
      else
        if st.active.isEmpty then .ok (st, s :: rest)
        else
          match findCmd st.active s with
          | some sub => resolveLoop (enterCmd st sub) rest
          | none =>
            if st.cmdpath.length = 1 ∧ s ∈ specialCmdsL then
              resolveLoop (setSpecial st s) rest
            else
              .error (.commandNotFound s)) := by
  rw [resolveLoop.eq_def]

/-- One loop iteration on a flag token dispatches on `flagStep`. -/
theorem resolveLoop_flag_cons (st : RState) (s : Tok) (rest : List Tok)
    (hdd : ¬s = ddash) (hf : isFlagTok s = true) :
    resolveLoop st (s :: rest) =
      match flagStep st s rest.head? with
      | .error e => .error e
      | .ok (st2, false) => resolveLoop st2 rest
      | .ok (st2, true) =>
        match rest with
        | [] => .ok (st2, [])
        | _ :: rest2 => resolveLoop st2 rest2 := by
  rw [resolveLoop_cons_eq, if_neg hdd, if_pos hf]

/-- One loop iteration on a non-flag token: stop at a leaf-like terminal,
else enter a matching subcommand, else record a top-level special command,
else fail. -/
theorem resolveLoop_nonflag_cons (st : RState) (s : Tok) (rest : List Tok)
    (hdd : ¬s = ddash) (hf : isFlagTok s = false) :
    resolveLoop st (s :: rest) =
      if st.active.isEmpty then .ok (st, s :: rest)
      else
        match findCmd st.active s with
        | some sub => resolveLoop (enterCmd st sub) rest
        | none =>
          if st.cmdpath.length = 1 ∧ s ∈ specialCmdsL then
            resolveLoop (setSpecial st s) rest
          else
            .error (.commandNotFound s) := by
  rw [resolveLoop_cons_eq, if_neg hdd]
  simp [hf]

/-- Claim C1: when a flag name is declared in the Flag Registries of two or
more nodes on the resolved path, a `-name=value` token mutates the
flag-value of the deepest (most recently appended) declaring node on the
path — the lookup hit `d` declares the name and no deeper node does, the
scan continues with exactly the store entry for depth `d` added, and the
recorded values of all other depths (in particular the shallower
declarations) are unchanged. -/
theorem c1_deepest_wins (st : RState) (c : Char) (cs v : Tok) (rest : List Tok)
    (d : Nat) (f : FlagSpec)
    (hc1 : c ≠ '-') (hc2 : c ≠ '=') (hcs : '=' ∉ cs)
    (hlk : lookupFlag st.cmdpath (c :: cs) = some (d, f))
    (hacc : f.accepts v = true) :
    declares (nodeAt st.cmdpath d) (c :: cs) = true
    ∧ (∀ j, d < j → j < st.cmdpath.length → declares (nodeAt st.cmdpath j) (c :: cs) = false)
    ∧ resolveLoop st (('-' :: c :: (cs ++ '=' :: v)) :: rest)
        = resolveLoop (setF st d (c :: cs) v) rest
    ∧ (∀ i, i ≠ d → getValue (setF st d (c :: cs) v).store i (c :: cs)
        = getValue st.store i (c :: cs)) := by
  obtain ⟨hd1, hd2, hd3⟩ := lookupFlag_some_deepest st.cmdpath (c :: cs) d f hlk
  have hne : ('=' : Char) ∉ (c :: cs) := by
    intro hm
    rcases List.mem_cons.mp hm with h | h
    · exact hc2 h.symm
    · exact hcs h
  have hsp : splitEq (c :: (cs ++ '=' :: v)) = (c :: cs, some v) := by
    have h := splitEq_append (c :: cs) v hne
    simpa using h
  have hn0 : flagName0 ('-' :: c :: (cs ++ '=' :: v)) = c :: (cs ++ '=' :: v) :=
    flagName0_dash c _ hc1
  have hdd : ¬('-' :: c :: (cs ++ '=' :: v)) = ddash := by simp [ddash, hc1]
  have hstep : flagStep st ('-' :: c :: (cs ++ '=' :: v)) rest.head?
      = .ok (setF st d (c :: cs) v, false) := by
    cases hb : f.isBool <;>
      simp [flagStep, hn0, badName, hc1, hc2, hsp, hlk, hb, hacc]
  refine ⟨hd2, hd3, ?_, ?_⟩
  · rw [resolveLoop_flag_cons st _ rest hdd (isFlagTok_cons _ _), hstep]
  · intro i hi
    exact getValue_cons_ne st.store d i (c :: cs) v hi

/-- Claim C1 witness: on the tree `root{-x} > group{-x} > leaf`, with the
path `[root, group, leaf]` resolved, the token `-x=5` targets depth 1 (the
`group` node), the deepest declaring node; the root's `x` at depth 0 is
unchanged. -/
theorem c1_witness :
    declares (nodeAt stX.cmdpath 1) ['x'] = true
    ∧ (∀ j, 1 < j → j < stX.cmdpath.length → declares (nodeAt stX.cmdpath j) ['x'] = false)
    ∧ resolveLoop stX [['-', 'x', '=', '5']] = resolveLoop (setF stX 1 ['x'] ['5']) []
    ∧ (∀ i, i ≠ 1 → getValue (setF stX 1 ['x'] ['5']).store i ['x']
        = getValue stX.store i ['x']) :=
  c1_deepest_wins stX 'x' [] ['5'] [] 1 xFlag (by decide) (by decide) (by decide) rfl rfl

/-- Claim C2: a literal `--` token reached by the scan stops resolution at
once: the result is a success whose residual arguments are exactly the
tokens after that `--`, verbatim and in order, with no flag or subcommand
interpretation applied to them and no state change. -/
theorem c2_ddash_stops (st : RState) (rest : List Tok) :
    resolveLoop st (ddash :: rest) = .ok (st, rest) := by
  rw [resolveLoop_cons_eq, if_pos rfl]

/-- Claim C3 counterexample: on a root whose Flag Registry declares a
boolean flag named `h`, the token `-h` does **not** set the Special Command
Marker to help — the scan finds the declared flag first and sets it to
true, leaving the marker unset (never assigned). -/
theorem c3_counterexample :
    specialOf (resolve rootH [['-', 'h']]) = []
    ∧ specialSetsOf (resolve rootH [['-', 'h']]) = 0
    ∧ resolve rootH [['-', 'h']]
        = .ok ({ cmdpath := [rootH], active := [subLeaf], special := [],
                 specialSets := 0, store := [(0, hTok, trueTok)] }, []) :=
  ⟨rfl, rfl, rfl⟩

/-- Claim C3 (amended): a flag token named `help` or `h` (in `-` or `--`
form) sets the Special Command Marker to help and scanning continues — at
any depth of the path — provided no Flag Registry of a node on the path
declares that name (a declared `help`/`h` flag is found by the lookup and
treated as an ordinary flag instead). -/
theorem c3_reserved_help_when_undeclared (st : RState) (name : Tok) (rest : List Tok)
    (hname : name = helpTok ∨ name = hTok)
    (hlk : lookupFlag st.cmdpath name = none) :
    resolveLoop st (('-' :: name) :: rest) = resolveLoop (setSpecial st helpTok) rest
    ∧ resolveLoop st (('-' :: '-' :: name) :: rest)
        = resolveLoop (setSpecial st helpTok) rest := by
  rcases hname with h | h <;> subst h
  · have h1 : flagName0 ('-' :: helpTok) = helpTok := rfl
    have h1d : flagName0 ('-' :: '-' :: helpTok) = helpTok := rfl
    have h2 : ¬badName helpTok = true := by decide
    have h3 : splitEq helpTok = (helpTok, none) := rfl
    have hstep : flagStep st ('-' :: helpTok) rest.head?
        = .ok (setSpecial st helpTok, false) := by
      simp [flagStep, h1, h2, h3, hlk]
    have hstepd : flagStep st ('-' :: '-' :: helpTok) rest.head?
        = .ok (setSpecial st helpTok, false) := by
      simp [flagStep, h1d, h2, h3, hlk]
    constructor
    · rw [resolveLoop_flag_cons st ('-' :: helpTok) rest (by decide) rfl, hstep]
    · rw [resolveLoop_flag_cons st ('-' :: '-' :: helpTok) rest (by decide) rfl, hstepd]
  · have h1 : flagName0 ('-' :: hTok) = hTok := rfl
    have h1d : flagName0 ('-' :: '-' :: hTok) = hTok := rfl
    have h2 : ¬badName hTok = true := by decide
    have h3 : splitEq hTok = (hTok, none) := rfl
    have hstep : flagStep st ('-' :: hTok) rest.head?
        = .ok (setSpecial st helpTok, false) := by
      simp [flagStep, h1, h2, h3, hlk]
    have hstepd : flagStep st ('-' :: '-' :: hTok) rest.head?
        = .ok (setSpecial st helpTok, false) := by
      simp [flagStep, h1d, h2, h3, hlk]
    constructor
    · rw [resolveLoop_flag_cons st ('-' :: hTok) rest (by decide) rfl, hstep]
    · rw [resolveLoop_flag_cons st ('-' :: '-' :: hTok) rest (by decide) rfl, hstepd]

/-- Claim C3 (amended) witness: on a path with no declared `help`/`h`,
`-help` and `--help` both set the marker. -/
theorem c3_witness :
    resolveLoop (initStateOf rootPlain) [['-', 'h', 'e', 'l', 'p']]
      = resolveLoop (setSpecial (initStateOf rootPlain) helpTok) []
    ∧ resolveLoop (initStateOf rootPlain) [['-', '-', 'h', 'e', 'l', 'p']]
      = resolveLoop (setSpecial (initStateOf rootPlain) helpTok) [] :=
  c3_reserved_help_when_undeclared (initStateOf rootPlain) helpTok [] (Or.inl rfl) rfl

/-- Claim C4 counterexample: the token list `["help", "flags"]` at top
level assigns the Special Command Marker twice in one resolution pass — the
second reserved name overwrites the first, and the final marker is
`flags`. -/
theorem c4_counterexample :
    specialSetsOf (resolve rootPlain [helpTok, flagsTok]) = 2
    ∧ specialOf (resolve rootPlain [helpTok, flagsTok]) = flagsTok :=
  ⟨rfl, rfl⟩

/-- Claim C4 (amended): the Special Command Marker may be assigned more
than once during a resolution pass: every reserved name scanned at top
level (not matching a subcommand, with subcommands still active) assigns
the marker, overwriting whatever value it held, so the final marker comes
from the last such token. -/
theorem c4_marker_overwritten (st : RState) (s : Tok) (rest : List Tok)
    (hmem : s ∈ specialCmdsL)
    (hact : st.active.isEmpty = false)
    (hfind : findCmd st.active s = none)
    (hlen : st.cmdpath.length = 1) :
    resolveLoop st (s :: rest) = resolveLoop (setSpecial st s) rest := by
  have hs : s = helpTok ∨ s = flagsTok ∨ s = commandsTok := by
    simpa [specialCmdsL] using hmem
  rcases hs with h | h | h
  · subst h
    rw [resolveLoop_nonflag_cons st helpTok rest (by decide) rfl,
      if_neg (by simp [hact])]
    simp only [hfind]
    rw [if_pos ⟨hlen, by decide⟩]
  · subst h
    rw [resolveLoop_nonflag_cons st flagsTok rest (by decide) rfl,
      if_neg (by simp [hact])]
    simp only [hfind]
    rw [if_pos ⟨hlen, by decide⟩]
  · subst h
    rw [resolveLoop_nonflag_cons st commandsTok rest (by decide) rfl,
      if_neg (by simp [hact])]
    simp only [hfind]
    rw [if_pos ⟨hlen, by decide⟩]

/-- Claim C4 (amended) witness: with the marker already holding `help`
(one assignment recorded), a top-level `flags` token overwrites it. -/
theorem c4_witness :
    resolveLoop stMarked [flagsTok] = resolveLoop (setSpecial stMarked flagsTok) [] :=
  c4_marker_overwritten stMarked flagsTok [] (by decide) rfl rfl rfl

/-- Claim C5 counterexample: for the path `[prog{-port}, start]`, the code
renders `prog start <flags> <args>` — every node name first, then
`<flags>` — whereas the claim's word order (root name, `<flags>`,
the remaining node names, `<args>`) gives `prog <flags> start <args>`. -/
theorem c5_counterexample :
    getUsage pathUsage = [progTok, ['s', 't', 'a', 'r', 't'], flagsWord, argsWord]
    ∧ claimUsageWords pathUsage = [progTok, flagsWord, ['s', 't', 'a', 'r', 't'], argsWord]
    ∧ getUsage pathUsage ≠ claimUsageWords pathUsage :=
  ⟨by decide, by decide, by decide⟩

/-- Claim C5 (amended): the usage line consists of, in order, every path
node's name (the root's reduced to its display basename) — including the
terminal node's — then `<flags>` if any node on the path declares at least
one flag, then `<subcommand>` if the terminal node is a group, then
`<args>`. -/
theorem c5_usage_words (r : Node) (rest : List Node) :
    getUsage (r :: rest) = amendedUsageWords (r :: rest) := by
  unfold getUsage amendedUsageWords
  simp only [List.length_cons, Nat.add_sub_cancel]
  cases h1 : (r :: rest).any (fun c => c.flags.length ≠ 0) <;>
    cases h2 : (nodeAt (r :: rest) rest.length).isGroup <;>
    simp [h1, h2]

/-- Claim C6 counterexample: a non-nil empty command list is not detected:
`Run` proceeds, resolution stops at the first token, and the root help is
rendered — no `InvalidTree`/`os.ErrInvalid` error is returned. -/
theorem c6_counterexample :
    RunModel progTok [] (some []) [['x']]
      = some (.printedHelp [.group progTok [] []])
    ∧ some (Outcome.printedHelp [.group progTok [] []]) ≠ some Outcome.errInvalid :=
  ⟨rfl, by intro h; injection h with h2; exact Outcome.noConfusion h2⟩

/-- Claim C6 (amended): `Run` returns the eager invalid-tree error
(`os.ErrInvalid`) exactly for a nil command list — before looking at any
token; a non-nil command list (even an empty one) is not detected, and with
a non-empty token list resolution proceeds normally. -/
theorem c6_nil_only_detected :
    (∀ rn rf args, RunModel rn rf none args = some Outcome.errInvalid)
    ∧ (∀ rn rf cs a as, RunModel rn rf (some cs) (a :: as)
        = some (runGroup (Node.group rn rf cs) (a :: as))) :=
  ⟨fun _ _ _ => rfl, fun _ _ _ _ _ => rfl⟩

/-- Claim C7: a non-boolean flag found on the path whose token carries no
inline `=value` consumes the immediately following token as its value,
advancing the scan past it; if the flag token is the last token the scan
fails with the missing-flag-value error; if the conversion rejects the
consumed value the scan fails with the invalid-value error. -/
theorem c7_nonbool_lookahead (st : RState) (c : Char) (cs : Tok)
    (d : Nat) (f : FlagSpec)
    (hc1 : c ≠ '-') (hc2 : c ≠ '=') (hcs : '=' ∉ cs)
    (hlk : lookupFlag st.cmdpath (c :: cs) = some (d, f))
    (hnb : f.isBool = false) :
    resolveLoop st [('-' :: c :: cs)] = .error (.missingFlagValue (c :: cs))
    ∧ (∀ v rest2, f.accepts v = true →
        resolveLoop st (('-' :: c :: cs) :: v :: rest2)
          = resolveLoop (setF st d (c :: cs) v) rest2)
    ∧ (∀ v rest2, f.accepts v = false →
        resolveLoop st (('-' :: c :: cs) :: v :: rest2)
          = .error (.invalidValue (c :: cs) v)) := by
  have hne : ('=' : Char) ∉ (c :: cs) := by
    intro hm
    rcases List.mem_cons.mp hm with h | h
    · exact hc2 h.symm
    · exact hcs h
  have hsp : splitEq (c :: cs) = (c :: cs, none) := splitEq_of_not_mem _ hne
  have hn0 : flagName0 ('-' :: c :: cs) = c :: cs := flagName0_dash c cs hc1
  have hdd : ¬('-' :: c :: cs) = ddash := by simp [ddash, hc1]
  refine ⟨?_, ?_, ?_⟩
  · rw [resolveLoop_flag_cons st ('-' :: c :: cs) [] hdd (isFlagTok_cons _ _)]
    have hstep : flagStep st ('-' :: c :: cs) (([] : List Tok)).head?
        = .error (.missingFlagValue (c :: cs)) := by
      simp [flagStep, hn0, badName, hc1, hc2, hsp, hlk, hnb]
    rw [hstep]
  · intro v rest2 hacc
    rw [resolveLoop_flag_cons st ('-' :: c :: cs) (v :: rest2) hdd (isFlagTok_cons _ _)]
    have hstep : flagStep st ('-' :: c :: cs) (v :: rest2).head?
        = .ok (setF st d (c :: cs) v, true) := by
      simp [flagStep, hn0, badName, hc1, hc2, hsp, hlk, hnb, hacc, List.head?]
    rw [hstep]
  · intro v rest2 hacc
    rw [resolveLoop_flag_cons st ('-' :: c :: cs) (v :: rest2) hdd (isFlagTok_cons _ _)]
    have hstep : flagStep st ('-' :: c :: cs) (v :: rest2).head?
        = .error (.invalidValue (c :: cs) v) := by
      simp [flagStep, hn0, badName, hc1, hc2, hsp, hlk, hnb, hacc, List.head?]
    rw [hstep]

/-- Claim C7 witness: on a root declaring the integer flag `port`,
`-port` alone fails with missing-value, `-port 9090` consumes `9090`, and
`-port wow` fails with invalid-value. -/
theorem c7_witness :
    resolveLoop (initStateOf rootPort) [['-', 'p', 'o', 'r', 't']]
      = .error (.missingFlagValue ['p', 'o', 'r', 't'])
    ∧ resolveLoop (initStateOf rootPort) [['-', 'p', 'o', 'r', 't'], ['9', '0', '9', '0']]
      = resolveLoop (setF (initStateOf rootPort) 0 ['p', 'o', 'r', 't'] ['9', '0', '9', '0']) []
    ∧ resolveLoop (initStateOf rootPort) [['-', 'p', 'o', 'r', 't'], ['w', 'o', 'w']]
      = .error (.invalidValue ['p', 'o', 'r', 't'] ['w', 'o', 'w']) := by
  obtain ⟨h1, h2, h3⟩ := c7_nonbool_lookahead (initStateOf rootPort) 'p' ['o', 'r', 't']
    0 portFlag (by decide) (by decide) (by decide) rfl rfl
  exact ⟨h1, h2 ['9', '0', '9', '0'] [] rfl, h3 ['w', 'o', 'w'] [] rfl⟩

/-- Claim C8: a boolean flag declared on the path: a bare `-v` sets its
value to `true` and consumes no look-ahead token (scanning continues on the
untouched rest); `-v=value` with an accepted boolean text sets that value;
`-v=value` with a rejected text fails with the invalid-boolean-value
error. -/
theorem c8_bool_flag (st : RState) (c : Char) (cs : Tok)
    (d : Nat) (f : FlagSpec)
    (hc1 : c ≠ '-') (hc2 : c ≠ '=') (hcs : '=' ∉ cs)
    (hlk : lookupFlag st.cmdpath (c :: cs) = some (d, f))
    (hb : f.isBool = true) :
    (f.accepts trueTok = true → ∀ rest,
       resolveLoop st (('-' :: c :: cs) :: rest)
         = resolveLoop (setF st d (c :: cs) trueTok) rest)
    ∧ (∀ v rest, f.accepts v = true →
        resolveLoop st (('-' :: c :: (cs ++ '=' :: v)) :: rest)
          = resolveLoop (setF st d (c :: cs) v) rest)
    ∧ (∀ v rest, f.accepts v = false →
        resolveLoop st (('-' :: c :: (cs ++ '=' :: v)) :: rest)
          = .error (.invalidBoolValue (c :: cs) v)) := by
  have hne : ('=' : Char) ∉ (c :: cs) := by
    intro hm
    rcases List.mem_cons.mp hm with h | h
    · exact hc2 h.symm
    · exact hcs h
  have hsp0 : splitEq (c :: cs) = (c :: cs, none) := splitEq_of_not_mem _ hne
  have hn0 : flagName0 ('-' :: c :: cs) = c :: cs := flagName0_dash c cs hc1
  have hdd : ¬('-' :: c :: cs) = ddash := by simp [ddash, hc1]
  refine ⟨?_, ?_, ?_⟩
  · intro hacc rest
    rw [resolveLoop_flag_cons st ('-' :: c :: cs) rest hdd (isFlagTok_cons _ _)]
    have hstep : flagStep st ('-' :: c :: cs) rest.head?
        = .ok (setF st d (c :: cs) trueTok, false) := by
      simp [flagStep, hn0, badName, hc1, hc2, hsp0, hlk, hb, hacc]
    rw [hstep]
  · intro v rest hacc
    have hsp : splitEq (c :: (cs ++ '=' :: v)) = (c :: cs, some v) := by
      have h := splitEq_append (c :: cs) v hne
      simpa using h
    have hn0v : flagName0 ('-' :: c :: (cs ++ '=' :: v)) = c :: (cs ++ '=' :: v) :=
      flagName0_dash c _ hc1
    rw [resolveLoop_flag_cons st ('-' :: c :: (cs ++ '=' :: v)) rest
      (by simp [ddash, hc1]) (isFlagTok_cons _ _)]
    have hstep : flagStep st ('-' :: c :: (cs ++ '=' :: v)) rest.head?
        = .ok (setF st d (c :: cs) v, false) := by
      simp [flagStep, hn0v, badName, hc1, hc2, hsp, hlk, hb, hacc]
    rw [hstep]
  · intro v rest hacc
    have hsp : splitEq (c :: (cs ++ '=' :: v)) = (c :: cs, some v) := by
      have h := splitEq_append (c :: cs) v hne
      simpa using h
    have hn0v : flagName0 ('-' :: c :: (cs ++ '=' :: v)) = c :: (cs ++ '=' :: v) :=
      flagName0_dash c _ hc1
    rw [resolveLoop_flag_cons st ('-' :: c :: (cs ++ '=' :: v)) rest
      (by simp [ddash, hc1]) (isFlagTok_cons _ _)]
    have hstep : flagStep st ('-' :: c :: (cs ++ '=' :: v)) rest.head?
        = .error (.invalidBoolValue (c :: cs) v) := by
      simp [flagStep, hn0v, badName, hc1, hc2, hsp, hlk, hb, hacc]
    rw [hstep]

/-- Claim C8 witness: on a root declaring the standard boolean flag `v`,
a bare `-v` sets `true` leaving the following token unconsumed, `-v=false`
sets `false`, and `-v=notabool` fails with the invalid-boolean-value
error. -/
theorem c8_witness :
    resolveLoop (initStateOf rootV) [['-', 'v'], ['z']]
      = resolveLoop (setF (initStateOf rootV) 0 ['v'] trueTok) [['z']]
    ∧ resolveLoop (initStateOf rootV) [['-', 'v', '=', 'f', 'a', 'l', 's', 'e']]
      = resolveLoop (setF (initStateOf rootV) 0 ['v'] ['f', 'a', 'l', 's', 'e']) []
    ∧ resolveLoop (initStateOf rootV) [['-', 'v', '=', 'n', 'o', 't', 'a', 'b', 'o', 'o', 'l']]
      = .error (.invalidBoolValue ['v'] ['n', 'o', 't', 'a', 'b', 'o', 'o', 'l']) := by
  obtain ⟨h1, h2, h3⟩ := c8_bool_flag (initStateOf rootV) 'v' [] 0 vFlag
    (by decide) (by decide) (by decide) rfl rfl
  exact ⟨h1 (by decide) [['z']], h2 ['f', 'a', 'l', 's', 'e'] [] (by decide),
    h3 ['n', 'o', 't', 'a', 'b', 'o', 'o', 'l'] [] (by decide)⟩

/-- Claim C9: when resolution fails, the error is returned synchronously
to the caller: `run` produces exactly that failure — no leaf executable is
invoked and no help, flags, or commands output is rendered. -/
theorem c9_error_aborts (root : Node) (args : List Tok) (e : RErr)
    (h : resolve root args = .error e) :
    runGroup root args = .failed e
    ∧ (∀ p r s, runGroup root args ≠ .invoked p r s)
    ∧ (∀ p, runGroup root args ≠ .printedHelp p)
    ∧ (∀ p, runGroup root args ≠ .printedFlags p)
    ∧ (∀ p, runGroup root args ≠ .printedCommands p) := by
  have h1 : runGroup root args = .failed e := by
    unfold runGroup
    rw [h]
  refine ⟨h1, ?_, ?_, ?_, ?_⟩ <;> intro _
  · intro _ _
    rw [h1]
    intro hx
    exact Outcome.noConfusion hx
  all_goals
    rw [h1]
    intro hx
    exact Outcome.noConfusion hx

/-- Claim C9 witness: `["server", "restart"]` where `restart` is not a
child of `server` fails with command-not-found for `restart`, and no leaf
is invoked. -/
theorem c9_witness :
    runGroup rootSrv [['s', 'e', 'r', 'v', 'e', 'r'], ['r', 'e', 's', 't', 'a', 'r', 't']]
      = .failed (.commandNotFound ['r', 'e', 's', 't', 'a', 'r', 't']) :=
  (c9_error_aborts rootSrv [['s', 'e', 'r', 'v', 'e', 'r'], ['r', 'e', 's', 't', 'a', 'r', 't']]
    (.commandNotFound ['r', 'e', 's', 't', 'a', 'r', 't']) rfl).1

/-- Claim C10: after the nil-check on the command list, `Run` takes the
address of `args[0]` unconditionally, so a call with a non-nil command list
and zero tokens panics (modelled as `none`) instead of returning an error
or rendering help; a nil command list with zero tokens still returns the
eager error, showing the panic sits after the nil-check. -/
theorem c10_empty_args_panics (cs : List Node) (h : cs ≠ []) (rn : Tok)
    (rf : List FlagSpec) :
    RunModel rn rf (some cs) [] = none
    ∧ RunModel rn rf none [] = some Outcome.errInvalid :=
  ⟨rfl, rfl⟩

/-- Claim C10 witness: a one-command list with empty args panics. -/
theorem c10_witness :
    RunModel progTok [] (some [subLeaf]) [] = none
    ∧ RunModel progTok [] none [] = some Outcome.errInvalid :=
  c10_empty_args_panics [subLeaf] (by simp) progTok []

end Cli
